import Mathlib

/-!
# Verification of the Deckel FP4A post-processor command translator

Shallow embedding of the translation core of `deckel_post.py` (the
`parse_command` dialect table and the per-command body of the `parse`
loop), together with theorems settling the specification claims.

Modelling conventions:
* Python floats are modelled as rationals (`ℚ`); all comparisons in the
  source are exact float comparisons, which the rational model reflects
  on the inputs considered here.
* `FreeCAD.Units.Quantity(...).getValueAs(unit)` is a linear unit
  conversion; it is modelled by the configuration factors `lengthScale`
  (internal mm → `UNIT_FORMAT`, 1 for metric) and `speedScale`
  (internal mm/s → `UNIT_SPEED_FORMAT`, 60 for "mm/min").
* Python `int(x)` on a float truncates toward zero: `truncQ`.
* Python dicts (`c.Parameters`, `currLocation`) are association lists
  with first-match lookup; `dict.update(d)` is modelled by prepending
  `d` so that its keys shadow older entries.
* Python `print` calls that are debug traces (`"Spindle speed: ..."`,
  `"Command: ..."`, `"Show editor ..."`) are not modelled; the
  diagnostics channel collects the warning/error prints
  (`"Warning: Command ... not recognized..."` from `parse_command` and
  the rotary-axis `"ERROR: ..."` print).
* Module-level mutable globals (`LINENR`, `SPINDLE_SPEED`,
  `LAST_SPINDLE_SPEED`) and the per-`parse`-call locals (`lastcommand`,
  `currLocation`) are gathered into one explicit state record `PState`;
  `initState` holds the values at module load / `parse` entry.
-/

namespace DeckelPost

/-- Truncation toward zero of a rational, modelling Python `int(float)`. -/
def truncQ (q : ℚ) : ℤ :=
  q.num.tdiv (q.den : ℤ)

/-- Zero-padded 4-digit rendering of a natural number, modelling the
Python format string `f"{LINENR:04d}"` (numbers ≥ 10000 print in full). -/
def pad4 (n : Nat) : String :=
  if n < 10 then "000" ++ toString n
  else if n < 100 then "00" ++ toString n
  else if n < 1000 then "0" ++ toString n
  else toString n

/-- `firstCharIs ch s` models Python's `s[0] == ch` / `s.startswith(ch)`
for a single-character pattern: the first character of `s` is `ch`. -/
def firstCharIs (ch : Char) (s : String) : Bool :=
  s.data.head? = some ch

/-- A word list contains a word for letter `ch` (a word whose first
character is `ch`), e.g. a Y-word or a Z-word. -/
def hasWord (ch : Char) (ws : List String) : Bool :=
  ws.any (firstCharIs ch)

/-- One generic command: symbolic name plus parameter mapping
(`c.Name`, `c.Parameters` in the source). -/
structure Cmd where
  name : String
  params : List (String × ℚ)
deriving DecidableEq, Repr

/-- Per-run configuration: the module globals of `deckel_post.py` that the
`parse` loop reads, plus the two unit-conversion factors. -/
structure Config where
  outputComments : Bool
  outputLineNumbers : Bool
  modal : Bool
  outputDoubles : Bool
  useTLO : Bool
  lengthScale : ℚ
  speedScale : ℚ
deriving DecidableEq, Repr

/-- The mutable state threaded through the `parse` loop:
`lastcommand` and `currLocation` are `parse`-local variables,
`linenr`, `spindleSpeed`, `lastSpindleSpeed` are the module globals
`LINENR`, `SPINDLE_SPEED`, `LAST_SPINDLE_SPEED`. -/
structure PState where
  lastcommand : Option String
  currLocation : List (String × ℚ)
  linenr : Nat
  spindleSpeed : ℚ
  lastSpindleSpeed : ℚ
deriving DecidableEq, Repr

/-- State at module load / `parse` entry: `LINENR = 0`,
`SPINDLE_SPEED = LAST_SPINDLE_SPEED = 0.0`, `lastcommand = None`, and
`currLocation` seeded from `firstmove = Path.Command("G0",
{"X": -1, "Y": -1, "Z": -1, "F": 0.0})`. -/
def initState : PState :=
  { lastcommand := none
    currLocation := [("X", -1), ("Y", -1), ("Z", -1), ("F", 0)]
    linenr := 0
    spindleSpeed := 0
    lastSpindleSpeed := 0 }

/-- Default configuration from the module globals: comments off, line
numbers on, non-modal, doubles suppressed, TLO on, metric units
(`UNIT_FORMAT = "mm"`, `UNIT_SPEED_FORMAT = "mm/min"`). -/
def cfg0 : Config :=
  { outputComments := false
    outputLineNumbers := true
    modal := false
    outputDoubles := false
    useTLO := true
    lengthScale := 1
    speedScale := 60 }

/-- The fixed parameter emission order (`params` list in `parse`). -/
def PARAMS : List String :=
  ["X", "Y", "Z", "A", "B", "C", "I", "J", "F", "S", "T", "Q", "R", "L", "H", "D", "P"]

/-- The diagnostic printed by `parse_command` for an unknown name. -/
def unrecognizedDiag (name : String) : String :=
  "Warning: Command " ++ name ++ " not recognized, passing through unchanged."

/-- The diagnostic printed for rotary-axis (A/B/C) parameters. -/
def rotaryDiag : String :=
  "ERROR: Rotary axis not supported by this postprocessor."

/-- First-match association-list lookup, modelling Python dict access
(`d[k]` / `k in d`); written with decidable string equality so that it
evaluates under `simp` and `decide`. -/
def lookupV (k : String) : List (String × ℚ) → Option ℚ
  | [] => none
  | (a, b) :: es => if k = a then some b else lookupV k es

/-- The dialect table of `parse_command`: dict lookup in `command_map`,
`None` for unknown names. -/
def parse_command (name : String) : Option String :=
  if name = "G0" then some "G00"
  else if name = "G1" then some "G01"
  else if name = "G2" then some "G02"
  else if name = "G3" then some "G03"
  else if name = "G54" then some "G54"
  else none

/-- `format_length`: the `else` branch of the parameter loop —
`position = int(pos.getValueAs(UNIT_FORMAT) * 100.0)`,
`sign = "+" if position >= 0 else ""`, rendered `f"{sign}{position}"`. -/
def formatLength (cfg : Config) (v : ℚ) : String :=
  let position : ℤ := truncQ (v * cfg.lengthScale * 100)
  (if 0 ≤ position then "+" else "") ++ toString position

/-- The body of the parameter loop of `parse` for one parameter letter
`p` present in the command with value `v`: returns the emitted words and
the diagnostics.  Mirrors the `if/elif/else` chain at lines 388–439 of
`deckel_post.py` (`cname` is `c.Name`, `loc` is `currLocation`). -/
def wordForParam (cfg : Config) (cname : String) (loc : List (String × ℚ))
    (p : String) (v : ℚ) : List String × List String :=
  if p = "F" ∧ (lookupV "F" loc ≠ some v ∨ cfg.outputDoubles = true) then
    if ¬(cname = "G0" ∨ cname = "G00") then
      if v * cfg.speedScale > 0 then
        ([p ++ toString (truncQ (v * cfg.speedScale))], [])
      else ([], [])
    else ([], [])
  else if p = "T" then ([p ++ toString (truncQ v)], [])
  else if p = "H" then ([p ++ toString (truncQ v)], [])
  else if p = "D" then ([p ++ toString (truncQ v)], [])
  else if p = "S" then ([p ++ toString (truncQ v)], [])
  else if cfg.outputDoubles = false ∧ lookupV p loc = some v then
    ([], [])
  else if p = "A" ∨ p = "B" ∨ p = "C" then
    ([], [rotaryDiag])
  else
    ([p ++ formatLength cfg v], [])

/-- The full parameter loop: for each letter of `PARAMS` present in the
command's parameter map, collect the words and diagnostics of
`wordForParam`, in `PARAMS` order. -/
def paramWords (cfg : Config) (cname : String) (loc : List (String × ℚ))
    (ps : List (String × ℚ)) : List String × List String :=
  let results := PARAMS.filterMap fun p => (lookupV p ps).map (wordForParam cfg cname loc p)
  ((results.map Prod.fst).flatten, (results.map Prod.snd).flatten)

/-- The result of translating one command: the updated state, the text
emitted before the main line (only the dead tool-change branch writes
here), the main output line as a word list (zero or one line), the
diagnostics, and whether the accumulated output was cleared (only the
dead `message` branch sets this). -/
structure StepRes where
  state : PState
  preText : String
  lines : List (List String)
  diags : List String
  clearOut : Bool
deriving DecidableEq, Repr

/-- Assemble one output line exactly as the source does:
each word followed by `COMMAND_SPACE = " "`, then a newline. -/
def lineText (ws : List String) : String :=
  String.join (ws.map (fun w => w ++ " ")) ++ "\n"

/-- The full text chunk a step contributes to `out`. -/
def stepText (r : StepRes) : String :=
  r.preText ++ String.join (r.lines.map lineText)

/-- One iteration of the `for c in pathobj.Path.Commands` loop of
`parse` (lines 361–480 of `deckel_post.py`), as a function of the
configuration, the current state and the command. -/
def stepCmd (cfg : Config) (s : PState) (c : Cmd) : StepRes :=
  -- spindle bookkeeping: M3/M4 update SPINDLE_SPEED and `continue`
  if c.name = "M3" ∨ c.name = "M4" then
    let factor : ℚ := if c.name = "M3" then 1 else -1
    { state := { s with spindleSpeed := factor * ((lookupV "S" c.params).getD s.spindleSpeed) }
      preText := "", lines := [], diags := [], clearOut := false }
  -- G21 (metric units select) is ignored
  else if c.name = "G21" then
    { state := s, preText := "", lines := [], diags := [], clearOut := false }
  else
    match parse_command c.name with
    | none =>
      -- unknown name: warning diagnostic, `continue` (state untouched)
      { state := s, preText := "", lines := [], diags := [unrecognizedDiag c.name]
        clearOut := false }
    | some command =>
      -- outstring = [command]; modal suppression pops it when repeated
      let outstring0 : List String :=
        if cfg.modal = true ∧ s.lastcommand = some command then [] else [command]
      -- comment check: `c.Name[0] == "(" and not OUTPUT_COMMENTS` ⇒ continue
      if firstCharIs '(' c.name = true ∧ cfg.outputComments = false then
        { state := s, preText := "", lines := [], diags := [], clearOut := false }
      else
        let pd := paramWords cfg c.name s.currLocation c.params
        let outstring1 := outstring0 ++ pd.1
        -- spindle-speed edge emission on G-commands
        let spindleEmit : Bool :=
          firstCharIs 'G' command && decide (s.spindleSpeed ≠ s.lastSpindleSpeed)
        let outstring2 :=
          outstring1 ++ (if spindleEmit then ["S" ++ toString (truncQ s.spindleSpeed)] else [])
        let lastSp : ℚ := if spindleEmit then s.spindleSpeed else s.lastSpindleSpeed
        -- lastcommand = command; currLocation.update(c.Parameters)
        let loc : List (String × ℚ) := c.params ++ s.currLocation
        -- tool change branch (`command == "M6"`): emit an M5 line
        -- (TOOL_CHANGE is empty) and append the G43 word when USE_TLO;
        -- `c.Parameters["T"]` is modelled with default 0 (the branch is
        -- unreachable: `parse_command` never returns "M6")
        let preText : String :=
          if command = "M6" then
            (if cfg.outputLineNumbers then "N" ++ pad4 (s.linenr + 1) ++ " " else "") ++ "M5\n"
          else ""
        let linenr1 : Nat :=
          if command = "M6" ∧ cfg.outputLineNumbers = true then s.linenr + 1 else s.linenr
        let outstring3 :=
          outstring2 ++
            (if command = "M6" ∧ cfg.useTLO = true then
              ["\nG43 H" ++ toString (truncQ ((lookupV "T" c.params).getD 0))]
            else [])
        -- `message` branch (also unreachable): with comments on, drop the
        -- first word; with comments off, Python rebinds `out = []`,
        -- clearing the accumulated output (modelled by `clearOut`)
        let clear : Bool := command = "message" && !cfg.outputComments
        let outstring4 :=
          if command = "message" ∧ cfg.outputComments = true then outstring3.tail
          else outstring3
        -- emission: only when at least one word remains
        if outstring4 = [] then
          { state := { lastcommand := some command, currLocation := loc, linenr := linenr1
                       spindleSpeed := s.spindleSpeed, lastSpindleSpeed := lastSp }
            preText := preText, lines := [], diags := pd.2, clearOut := clear }
        else
          let linenr2 : Nat := if cfg.outputLineNumbers then linenr1 + 1 else linenr1
          let wsFinal : List String :=
            if cfg.outputLineNumbers then ("N" ++ pad4 (linenr1 + 1)) :: outstring4
            else outstring4
          { state := { lastcommand := some command, currLocation := loc, linenr := linenr2
                       spindleSpeed := s.spindleSpeed, lastSpindleSpeed := lastSp }
            preText := preText, lines := [wsFinal], diags := pd.2, clearOut := clear }

/-- The accumulating loop over the command list: threads the state,
concatenates emitted text (honouring the `out = []` clearing of the dead
`message` branch) and collects diagnostics. -/
def runAux (cfg : Config) : PState → String → List String → List Cmd →
    PState × String × List String
  | s, acc, ds, [] => (s, acc, ds)
  | s, acc, ds, c :: rest =>
    let r := stepCmd cfg s c
    runAux cfg r.state (if r.clearOut then stepText r else acc ++ stepText r)
      (ds ++ r.diags) rest

/-- Translate a command sequence from a given state: final state, output
text, diagnostics.  This is the command loop of `parse` for one simple
path object. -/
def parseRun (cfg : Config) (s : PState) (cmds : List Cmd) :
    PState × String × List String :=
  runAux cfg s "" [] cmds

/-! ## Helper lemmas -/

/-- The dialect table is closed: a successful lookup is one of the five
mapped pairs. -/
lemma parse_command_cases {n m : String} (h : parse_command n = some m) :
    n = "G0" ∧ m = "G00" ∨ n = "G1" ∧ m = "G01" ∨ n = "G2" ∧ m = "G02" ∨
      n = "G3" ∧ m = "G03" ∨ n = "G54" ∧ m = "G54" := by
  unfold parse_command at h
  split_ifs at h with h1 h2 h3 h4 h5 <;> simp_all

/-- String append acts as list append on the underlying character data. -/
lemma str_data_append (a b : String) : (a ++ b).data = a.data ++ b.data := by
  cases a; cases b; rfl

/-- The first character of an appended string is that of the (nonempty)
first factor. -/
lemma firstCharIs_append (ch : Char) (p t : String) (hp : p ≠ "") :
    firstCharIs ch (p ++ t) = firstCharIs ch p := by
  unfold firstCharIs
  rw [str_data_append]
  cases hd : p.data with
  | nil =>
    exact absurd (by cases p; simp_all) hp
  | cons a l => simp

/-- `hasWord` distributes over list append. -/
lemma hasWord_append (ch : Char) (xs ys : List String) :
    hasWord ch (xs ++ ys) = (hasWord ch xs || hasWord ch ys) := by
  simp [hasWord]

/-- `hasWord` on a cons cell. -/
lemma hasWord_cons (ch : Char) (w : String) (ws : List String) :
    hasWord ch (w :: ws) = (firstCharIs ch w || hasWord ch ws) := by
  simp [hasWord]

/-- First-match association-list lookup is stable under appending on the
right when the key is found on the left. -/
lemma lookup_append_left {k : String} {v : ℚ} {xs ys : List (String × ℚ)}
    (h : lookupV k xs = some v) : lookupV k (xs ++ ys) = some v := by
  induction xs with
  | nil => simp [lookupV] at h
  | cons a as ih =>
    rcases a with ⟨a1, a2⟩
    simp only [List.cons_append, lookupV] at h ⊢
    by_cases hk : k = a1
    · rw [if_pos hk] at h ⊢; exact h
    · rw [if_neg hk] at h ⊢; exact ih h

/-- Every word the parameter loop emits for letter `p` carries `p` as its
prefix (the source renders `param + <formatted value>` in every branch). -/
lemma wordForParam_fst_shape (cfg : Config) (cname : String)
    (loc : List (String × ℚ)) (p : String) (v : ℚ) :
    (wordForParam cfg cname loc p v).1 = [] ∨
      ∃ t, (wordForParam cfg cname loc p v).1 = [p ++ t] := by
  unfold wordForParam
  split_ifs <;> first
    | exact Or.inl rfl
    | exact Or.inr ⟨_, rfl⟩

/-- The only diagnostic the parameter loop can produce is the
rotary-axis error. -/
lemma wordForParam_snd_shape (cfg : Config) (cname : String)
    (loc : List (String × ℚ)) (p : String) (v : ℚ) :
    (wordForParam cfg cname loc p v).2 = [] ∨
      (wordForParam cfg cname loc p v).2 = [rotaryDiag] := by
  unfold wordForParam
  split_ifs <;> first
    | exact Or.inl rfl
    | exact Or.inr rfl

/-- Every diagnostic of the parameter loop is the rotary-axis error. -/
lemma paramWords_diags_rotary (cfg : Config) (cname : String)
    (loc : List (String × ℚ)) (ps : List (String × ℚ)) :
    (paramWords cfg cname loc ps).2.all (fun d => d = rotaryDiag) = true := by
  unfold paramWords
  simp only [List.all_eq_true, List.mem_flatten, List.mem_map]
  rintro d ⟨l, ⟨⟨pr, hpr, rfl⟩, hd⟩⟩
  rcases List.mem_filterMap.mp hpr with ⟨p, -, hp⟩
  rcases Option.map_eq_some'.mp hp with ⟨v, -, rfl⟩
  rcases wordForParam_snd_shape cfg cname loc p v with h | h <;>
    rw [h] at hd <;> simp_all

/-- Facts about the names involved in a successful dialect lookup: the
input name is none of the specially handled ones and the mnemonic is a
G-word, not "M6" and not "message". -/
lemma resolved_name_facts {n m : String} (h : parse_command n = some m) :
    ¬(n = "M3" ∨ n = "M4") ∧ n ≠ "G21" ∧ firstCharIs '(' n = false ∧
      m ≠ "M6" ∧ m ≠ "message" ∧ firstCharIs 'G' m = true := by
  rcases parse_command_cases h with ⟨hn, hm⟩ | ⟨hn, hm⟩ | ⟨hn, hm⟩ | ⟨hn, hm⟩ | ⟨hn, hm⟩ <;>
    subst hn <;> subst hm <;>
    exact ⟨by decide, by decide, by decide, by decide, by decide, by decide⟩

/-- Projection values of the default configuration. -/
lemma cfg0_outputComments : cfg0.outputComments = false := rfl

/-- Projection values of the default configuration. -/
lemma cfg0_outputLineNumbers : cfg0.outputLineNumbers = true := rfl

/-- Projection values of the default configuration. -/
lemma cfg0_modal : cfg0.modal = false := rfl

/-- Projection values of the default configuration. -/
lemma cfg0_outputDoubles : cfg0.outputDoubles = false := rfl

/-- Projection values of the default configuration. -/
lemma cfg0_useTLO : cfg0.useTLO = true := rfl

/-- Projection values of the default configuration. -/
lemma cfg0_lengthScale : cfg0.lengthScale = 1 := rfl

/-- Projection values of the default configuration. -/
lemma cfg0_speedScale : cfg0.speedScale = 60 := rfl

/-- Projection values of the fresh state. -/
lemma initState_lastcommand : initState.lastcommand = none := rfl

/-- Projection values of the fresh state. -/
lemma initState_currLocation :
    initState.currLocation = [("X", -1), ("Y", -1), ("Z", -1), ("F", 0)] := rfl

/-- Projection values of the fresh state. -/
lemma initState_linenr : initState.linenr = 0 := rfl

/-- Projection values of the fresh state. -/
lemma initState_spindleSpeed : initState.spindleSpeed = 0 := rfl

/-- Projection values of the fresh state. -/
lemma initState_lastSpindleSpeed : initState.lastSpindleSpeed = 0 := rfl

/-- Truncation of an integer-valued rational is that integer. -/
lemma truncQ_intCast (z : ℤ) : truncQ ((z : ℤ) : ℚ) = z := by
  unfold truncQ
  rw [Rat.num_intCast, Rat.den_intCast]
  simp

/-- Evaluation helper: truncation of a rational that equals an integer. -/
lemma truncQ_eval (q : ℚ) (z : ℤ) (h : q = (z : ℚ)) : truncQ q = z := by
  rw [h, truncQ_intCast]

/-- Evaluation helper for `formatLength` at integer-valued scaled
lengths. -/
lemma formatLength_eval (cfg : Config) (v : ℚ) (z : ℤ)
    (h : v * cfg.lengthScale * 100 = (z : ℚ)) :
    formatLength cfg v = (if 0 ≤ z then "+" else "") ++ toString z := by
  unfold formatLength
  rw [h, truncQ_intCast]

/-- The word list the main emission assembles for a command resolved by
the dialect table: mnemonic (unless modally suppressed), parameter
words, then the optional spindle edge word. -/
def outP (cfg : Config) (s : PState) (c : Cmd) (m : String) : List String :=
  (if cfg.modal = true ∧ s.lastcommand = some m then [] else [m]) ++
    (paramWords cfg c.name s.currLocation c.params).1 ++
    (if firstCharIs 'G' m && decide (s.spindleSpeed ≠ s.lastSpindleSpeed) then
      ["S" ++ toString (truncQ s.spindleSpeed)]
    else [])

/-- Shape of `stepCmd` on any command the dialect table resolves: the
comment, tool-change and message branches cannot fire (the five
mnemonics are not "(", "M6" or "message"), so the step commits
`lastcommand`/`currLocation`/`lastSpindleSpeed`, emits no pre-text and
emits one line built from `outP` exactly when `outP` is nonempty. -/
lemma stepCmd_resolved (cfg : Config) (s : PState) (c : Cmd) (m : String)
    (h : parse_command c.name = some m) :
    stepCmd cfg s c =
      { state :=
          { lastcommand := some m
            currLocation := c.params ++ s.currLocation
            linenr :=
              if outP cfg s c m = [] then s.linenr
              else if cfg.outputLineNumbers then s.linenr + 1 else s.linenr
            spindleSpeed := s.spindleSpeed
            lastSpindleSpeed :=
              if firstCharIs 'G' m && decide (s.spindleSpeed ≠ s.lastSpindleSpeed)
              then s.spindleSpeed else s.lastSpindleSpeed }
        preText := ""
        lines :=
          if outP cfg s c m = [] then []
          else [if cfg.outputLineNumbers then ("N" ++ pad4 (s.linenr + 1)) :: outP cfg s c m
                else outP cfg s c m]
        diags := (paramWords cfg c.name s.currLocation c.params).2
        clearOut := false } := by
  obtain ⟨hA, hB, hC, hD, hE, -⟩ := resolved_name_facts h
  simp [stepCmd, h, hA, hB, hC, hD, hE, outP, List.append_assoc]
  split <;> simp [*]

/-- A word of the parameter loop's output comes from one of the
parameter letters present in the command. -/
lemma hasWord_paramWords_imp (ch : Char) (cfg : Config) (cname : String)
    (loc ps : List (String × ℚ))
    (hw : hasWord ch (paramWords cfg cname loc ps).1 = true) :
    ∃ p v, p ∈ PARAMS ∧ lookupV p ps = some v ∧
      hasWord ch (wordForParam cfg cname loc p v).1 = true := by
  unfold paramWords at hw
  dsimp only at hw
  unfold hasWord at hw
  rw [List.any_eq_true] at hw
  obtain ⟨w, hwmem, hch⟩ := hw
  rw [List.mem_flatten] at hwmem
  obtain ⟨l, hl, hwl⟩ := hwmem
  rw [List.mem_map] at hl
  obtain ⟨pr, hpr, rfl⟩ := hl
  rw [List.mem_filterMap] at hpr
  obtain ⟨p, hp, hmap⟩ := hpr
  rcases Option.map_eq_some'.mp hmap with ⟨v, hv, rfl⟩
  exact ⟨p, v, hp, hv, List.any_eq_true.mpr ⟨w, hwl, hch⟩⟩

/-- Every parameter letter is a nonempty string, so a word it prefixes
starts with its first character. -/
lemma PARAMS_firstChar (p : String) (hp : p ∈ PARAMS) (ch : Char) (t : String)
    (hch : firstCharIs ch (p ++ t) = true) : firstCharIs ch p = true := by
  have hne : p ≠ "" := by
    simp only [PARAMS, List.mem_cons, List.not_mem_nil, or_false] at hp
    rcases hp with rfl | rfl | rfl | rfl | rfl | rfl | rfl | rfl | rfl | rfl | rfl | rfl |
      rfl | rfl | rfl | rfl | rfl <;> decide
  rwa [firstCharIs_append ch p t hne] at hch

/-- The only parameter letter starting with 'F' is "F" itself. -/
lemma PARAMS_F (p : String) (hp : p ∈ PARAMS)
    (h : firstCharIs 'F' p = true) : p = "F" := by
  simp only [PARAMS, List.mem_cons, List.not_mem_nil, or_false] at hp
  rcases hp with rfl | rfl | rfl | rfl | rfl | rfl | rfl | rfl | rfl | rfl | rfl | rfl |
    rfl | rfl | rfl | rfl | rfl <;> first
    | rfl
    | exact absurd h (by decide)

/-- The F branch of the parameter loop emits no word when the converted
feed is not positive: either the feed is unchanged (suppressed), or the
command is a rapid (feed skipped), or the positivity test fails. -/
lemma wordForParam_F_empty (cfg : Config) (cname : String)
    (loc : List (String × ℚ)) (v : ℚ) (hneg : ¬(v * cfg.speedScale > 0)) :
    (wordForParam cfg cname loc "F" v).1 = [] := by
  unfold wordForParam
  by_cases h1 : ("F" : String) = "F" ∧ (lookupV "F" loc ≠ some v ∨ cfg.outputDoubles = true)
  · rw [if_pos h1]
    by_cases h2 : ¬(cname = "G0" ∨ cname = "G00")
    · rw [if_pos h2, if_neg hneg]
    · rw [if_neg h2]
  · rw [if_neg h1]
    have hlk : cfg.outputDoubles = false ∧ lookupV "F" loc = some v := by
      rcases not_and_or.mp h1 with hc | hc
      · exact absurd rfl hc
      · rcases not_or.mp hc with ⟨hc1, hc2⟩
        refine ⟨by simpa using hc2, not_ne_iff.mp hc1⟩
    rw [if_neg (by decide : ¬("F" : String) = "T"),
      if_neg (by decide : ¬("F" : String) = "H"),
      if_neg (by decide : ¬("F" : String) = "D"),
      if_neg (by decide : ¬("F" : String) = "S"), if_pos hlk]

/-- Truncation toward zero agrees with the floor on non-negative
rationals. -/
lemma truncQ_eq_floor_of_nonneg {q : ℚ} (h : 0 ≤ q) : truncQ q = ⌊q⌋ := by
  unfold truncQ
  rw [Int.tdiv_eq_ediv (Rat.num_nonneg.mpr h) (Int.natCast_nonneg _), Rat.floor_def]

/-- Truncation toward zero is odd. -/
lemma truncQ_neg (q : ℚ) : truncQ (-q) = -truncQ q := by
  unfold truncQ
  rw [Rat.num_neg_eq_neg_num, Rat.neg_den, Int.neg_tdiv]

/-- `stepCmd` never reads the tool-length-offset toggle: the only branch
mentioning it is guarded by the unreachable mnemonic "M6". -/
lemma stepCmd_useTLO (cfg : Config) (b : Bool) (s : PState) (c : Cmd) :
    stepCmd { cfg with useTLO := b } s c = stepCmd cfg s c := by
  by_cases h34 : c.name = "M3" ∨ c.name = "M4"
  · simp [stepCmd, h34]
  · by_cases h21 : c.name = "G21"
    · simp [stepCmd, h34, h21]
    · cases hpc : parse_command c.name with
      | none => simp [stepCmd, h34, h21, hpc]
      | some m =>
        rw [stepCmd_resolved { cfg with useTLO := b } s c m hpc,
          stepCmd_resolved cfg s c m hpc]
        rfl

/-- The accumulating loop never reads the tool-length-offset toggle. -/
lemma runAux_useTLO (cfg : Config) (b : Bool) :
    ∀ (cmds : List Cmd) (s : PState) (acc : String) (ds : List String),
      runAux { cfg with useTLO := b } s acc ds cmds = runAux cfg s acc ds cmds := by
  intro cmds
  induction cmds with
  | nil => intro s acc ds; rfl
  | cons c rest ih =>
    intro s acc ds
    simp only [runAux, stepCmd_useTLO]
    exact ih _ _ _

/-! ## Claim C1 — Y/Z interlock split -/

/-- Claim C1 (counterexample): a linear move carrying Y=10 mm and Z=-5 mm
is emitted as ONE line that contains both the Y-word and the Z-word,
refuting "the translator emits two output lines ... and consequently no
emitted line ever contains both a Y-word and a Z-word". -/
theorem C1_counterexample :
    (stepCmd cfg0 initState ⟨"G1", [("Y", 10), ("Z", -5)]⟩).lines =
      [["N0001", "G01", "Y+1000", "Z-500"]] ∧
      hasWord 'Y' ["N0001", "G01", "Y+1000", "Z-500"] = true ∧
      hasWord 'Z' ["N0001", "G01", "Y+1000", "Z-500"] = true := by
  refine ⟨?_, by decide, by decide⟩
  have hp : parse_command "G1" = some "G01" := by decide
  have hY : formatLength cfg0 10 = "+1000" := by
    rw [formatLength_eval cfg0 10 1000 (by norm_num [cfg0_lengthScale])]
    decide
  have hZ : formatLength cfg0 (-5) = "-500" := by
    rw [formatLength_eval cfg0 (-5) (-500) (by norm_num [cfg0_lengthScale])]
    decide
  simp [stepCmd, hp, paramWords, PARAMS, wordForParam, List.filterMap_cons, hY, hZ,
    firstCharIs, pad4, lookupV, cfg0_outputComments, cfg0_outputLineNumbers, cfg0_modal,
    cfg0_outputDoubles, cfg0_useTLO, initState_lastcommand, initState_currLocation,
    initState_linenr, initState_spindleSpeed, initState_lastSpindleSpeed,
    (show ¬((-1 : ℚ) = 10) by norm_num), (show ¬((-1 : ℚ) = -5) by norm_num)]
  all_goals decide

/-- Claim C1 (amended): for every translated command whose formatted
parameter list contains both a Y-word and a Z-word, the translator emits
a single output line carrying both words together — no interlock split
into a Y line and a Z-only line is performed. -/
theorem C1_amended (cfg : Config) (s : PState) (c : Cmd) (m : String)
    (h : parse_command c.name = some m)
    (hY : hasWord 'Y' (paramWords cfg c.name s.currLocation c.params).1 = true)
    (hZ : hasWord 'Z' (paramWords cfg c.name s.currLocation c.params).1 = true) :
    ∃ ws, (stepCmd cfg s c).lines = [ws] ∧
      hasWord 'Y' ws = true ∧ hasWord 'Z' ws = true := by
  rw [stepCmd_resolved cfg s c m h]
  dsimp only
  have hYo : hasWord 'Y' (outP cfg s c m) = true := by
    unfold outP
    rw [hasWord_append, hasWord_append, hY]
    simp
  have hZo : hasWord 'Z' (outP cfg s c m) = true := by
    unfold outP
    rw [hasWord_append, hasWord_append, hZ]
    simp
  have hne : outP cfg s c m ≠ [] := by
    intro he
    rw [he] at hYo
    simp [hasWord] at hYo
  rw [if_neg hne]
  by_cases hln : cfg.outputLineNumbers = true
  · refine ⟨("N" ++ pad4 (s.linenr + 1)) :: outP cfg s c m, by rw [if_pos hln], ?_, ?_⟩
    · rw [hasWord_cons, hYo]; simp
    · rw [hasWord_cons, hZo]; simp
  · refine ⟨outP cfg s c m, by rw [if_neg hln], hYo, hZo⟩

/-- Claim C1 (witness): the amended statement instantiated at the
Y=10, Z=-5 linear move from the fresh state. -/
theorem C1_witness :
    parse_command (Cmd.name ⟨"G1", [("Y", 10), ("Z", -5)]⟩) = some "G01" ∧
      hasWord 'Y' (paramWords cfg0 (Cmd.name ⟨"G1", [("Y", 10), ("Z", -5)]⟩)
        initState.currLocation (Cmd.params ⟨"G1", [("Y", 10), ("Z", -5)]⟩)).1 = true ∧
      hasWord 'Z' (paramWords cfg0 (Cmd.name ⟨"G1", [("Y", 10), ("Z", -5)]⟩)
        initState.currLocation (Cmd.params ⟨"G1", [("Y", 10), ("Z", -5)]⟩)).1 = true ∧
      ∃ ws, (stepCmd cfg0 initState ⟨"G1", [("Y", 10), ("Z", -5)]⟩).lines = [ws] ∧
        hasWord 'Y' ws = true ∧ hasWord 'Z' ws = true :=
  ⟨by decide, by decide, by decide,
    C1_amended cfg0 initState ⟨"G1", [("Y", 10), ("Z", -5)]⟩ "G01"
      (by decide) (by decide) (by decide)⟩

/-! ## Claim C3 — vacuous-move elision -/

/-- Claim C3 (counterexample): a linear move with no parameters at all
(hence no X, Y or Z word after suppression) still emits a line carrying
just the mnemonic, refuting vacuous-move elision. -/
theorem C3_counterexample :
    (stepCmd cfg0 initState ⟨"G1", []⟩).lines = [["N0001", "G01"]] ∧
      hasWord 'X' ["N0001", "G01"] = false ∧
      hasWord 'Y' ["N0001", "G01"] = false ∧
      hasWord 'Z' ["N0001", "G01"] = false :=
  ⟨by decide, by decide, by decide, by decide⟩

/-- Claim C3 (amended): there is no vacuous-move elision — any command
the dialect table resolves whose mnemonic survives modal suppression
emits exactly one line (containing the mnemonic), even when no X, Y or Z
word survives suppression.  (Only when modal suppression removes the
mnemonic and no other word remains is the line dropped, because emission
is gated solely on the word list being nonempty.) -/
theorem C3_amended (cfg : Config) (s : PState) (c : Cmd) (m : String)
    (h : parse_command c.name = some m)
    (hmod : ¬(cfg.modal = true ∧ s.lastcommand = some m)) :
    ∃ ws, (stepCmd cfg s c).lines = [ws] ∧ m ∈ ws := by
  rw [stepCmd_resolved cfg s c m h]
  dsimp only
  have hout : outP cfg s c m =
      m :: ((paramWords cfg c.name s.currLocation c.params).1 ++
        (if firstCharIs 'G' m && decide (s.spindleSpeed ≠ s.lastSpindleSpeed) then
          ["S" ++ toString (truncQ s.spindleSpeed)] else [])) := by
    unfold outP
    rw [if_neg hmod]
    simp
  have hne : outP cfg s c m ≠ [] := by rw [hout]; simp
  rw [if_neg hne]
  by_cases hln : cfg.outputLineNumbers = true
  · refine ⟨("N" ++ pad4 (s.linenr + 1)) :: outP cfg s c m, by rw [if_pos hln], ?_⟩
    rw [hout]
    exact List.mem_cons_of_mem _ (List.mem_cons_self _ _)
  · refine ⟨outP cfg s c m, by rw [if_neg hln], ?_⟩
    rw [hout]
    exact List.mem_cons_self _ _

/-- Claim C3 (witness): the amended statement at the empty linear move
from the fresh state. -/
theorem C3_witness :
    parse_command (Cmd.name ⟨"G1", ([] : List (String × ℚ))⟩) = some "G01" ∧
      ¬(cfg0.modal = true ∧ initState.lastcommand = some "G01") ∧
      ∃ ws, (stepCmd cfg0 initState ⟨"G1", []⟩).lines = [ws] ∧ "G01" ∈ ws :=
  ⟨by decide, by decide,
    C3_amended cfg0 initState ⟨"G1", []⟩ "G01" (by decide) (by decide)⟩

/-! ## Claim C6 — unrecognized commands -/

/-- Claim C6 (counterexample): M3 (a name absent from the dialect table)
changes the machine state (spindle speed 0 → 500) and produces zero
diagnostics, refuting "exactly one diagnostic ... leaves the machine
state unchanged" for arbitrary out-of-table names. -/
theorem C6_counterexample :
    (stepCmd cfg0 initState ⟨"M3", [("S", 500)]⟩).state.spindleSpeed = 500 ∧
      initState.spindleSpeed = 0 ∧
      (stepCmd cfg0 initState ⟨"M3", [("S", 500)]⟩).diags = [] ∧
      (stepCmd cfg0 initState ⟨"M3", [("S", 500)]⟩).lines = [] :=
  ⟨by simp [stepCmd, lookupV, initState_spindleSpeed], by decide, by decide, by decide⟩

/-- Claim C6 (amended): for every command whose symbolic name is not in
the dialect table and is not one of the specially handled names (the
spindle commands M3/M4 and the units command G21), translation produces
zero output lines, exactly one diagnostic, and leaves the machine state
completely unchanged. -/
theorem C6_amended (cfg : Config) (s : PState) (c : Cmd)
    (h34 : ¬(c.name = "M3" ∨ c.name = "M4")) (h21 : c.name ≠ "G21")
    (h : parse_command c.name = none) :
    stepCmd cfg s c =
      { state := s, preText := "", lines := [], diags := [unrecognizedDiag c.name]
        clearOut := false } := by
  simp [stepCmd, h34, h21, h]

/-- Claim C6 (witness): the amended statement at the unknown command
G17. -/
theorem C6_witness :
    ¬(Cmd.name ⟨"G17", [("X", 3)]⟩ = "M3" ∨ Cmd.name ⟨"G17", [("X", 3)]⟩ = "M4") ∧
      Cmd.name ⟨"G17", [("X", 3)]⟩ ≠ "G21" ∧
      parse_command (Cmd.name ⟨"G17", [("X", 3)]⟩) = none ∧
      stepCmd cfg0 initState ⟨"G17", [("X", 3)]⟩ =
        { state := initState, preText := "", lines := []
          diags := [unrecognizedDiag "G17"], clearOut := false } :=
  ⟨by decide, by decide, by decide,
    C6_amended cfg0 initState ⟨"G17", [("X", 3)]⟩ (by decide) (by decide) (by decide)⟩

/-! ## Claim C7 — inline S parameter emission -/

/-- Claim C7 (counterexample): a linear move carrying S=500 emits the S
value inline as the word "S500" during parameter formatting and does NOT
update spindle_speed (it stays 0), refuting "the S value is never
emitted as an inline per-parameter word; instead it updates
spindle_speed". -/
theorem C7_counterexample :
    (stepCmd cfg0 initState ⟨"G1", [("X", 10), ("S", 500)]⟩).lines =
      [["N0001", "G01", "X+1000", "S500"]] ∧
      (stepCmd cfg0 initState ⟨"G1", [("X", 10), ("S", 500)]⟩).state.spindleSpeed = 0 := by
  refine ⟨?_, by decide⟩
  have hp : parse_command "G1" = some "G01" := by decide
  have hX : formatLength cfg0 10 = "+1000" := by
    rw [formatLength_eval cfg0 10 1000 (by norm_num [cfg0_lengthScale])]
    decide
  have hS : truncQ (500 : ℚ) = 500 := truncQ_eval _ _ (by norm_num)
  simp [stepCmd, hp, paramWords, PARAMS, wordForParam, List.filterMap_cons, hX, hS,
    firstCharIs, pad4, lookupV, cfg0_outputComments, cfg0_outputLineNumbers, cfg0_modal,
    cfg0_outputDoubles, cfg0_useTLO, initState_lastcommand, initState_currLocation,
    initState_linenr, initState_spindleSpeed, initState_lastSpindleSpeed,
    (show ¬((-1 : ℚ) = 10) by norm_num)]
  all_goals decide

/-- Claim C7 (amended): an S parameter carried by any command that
reaches parameter formatting IS emitted inline (as "S" followed by the
truncated value, with no sign and no direction applied), and
spindle_speed is not updated by it — only the spindle commands M3/M4
update spindle_speed, and the separate edge-emission step appends its
own word from that state. -/
theorem C7_amended (cfg : Config) (s : PState) (c : Cmd) (m : String) (v : ℚ)
    (h : parse_command c.name = some m) (hS : lookupV "S" c.params = some v) :
    (∃ ws, (stepCmd cfg s c).lines = [ws] ∧ ("S" ++ toString (truncQ v)) ∈ ws) ∧
      (stepCmd cfg s c).state.spindleSpeed = s.spindleSpeed := by
  have hw : (wordForParam cfg c.name s.currLocation "S" v).1 =
      ["S" ++ toString (truncQ v)] := by
    simp [wordForParam]
  have hmem : ("S" ++ toString (truncQ v)) ∈
      (paramWords cfg c.name s.currLocation c.params).1 := by
    unfold paramWords
    dsimp only
    apply List.mem_flatten.mpr
    refine ⟨(wordForParam cfg c.name s.currLocation "S" v).1, ?_, ?_⟩
    · apply List.mem_map.mpr
      refine ⟨wordForParam cfg c.name s.currLocation "S" v, ?_, rfl⟩
      apply List.mem_filterMap.mpr
      refine ⟨"S", by decide, ?_⟩
      rw [hS]
      rfl
    · rw [hw]
      exact List.mem_cons_self _ _
  rw [stepCmd_resolved cfg s c m h]
  dsimp only
  constructor
  · have hoS : ("S" ++ toString (truncQ v)) ∈ outP cfg s c m := by
      unfold outP
      exact List.mem_append.mpr (Or.inl (List.mem_append.mpr (Or.inr hmem)))
    have hne : outP cfg s c m ≠ [] := by
      intro he
      rw [he] at hoS
      exact absurd hoS (List.not_mem_nil _)
    rw [if_neg hne]
    by_cases hln : cfg.outputLineNumbers = true
    · exact ⟨("N" ++ pad4 (s.linenr + 1)) :: outP cfg s c m, by rw [if_pos hln],
        List.mem_cons_of_mem _ hoS⟩
    · exact ⟨outP cfg s c m, by rw [if_neg hln], hoS⟩
  · rfl

/-- Claim C7 (witness): the amended statement at the S=500 linear move
from the fresh state. -/
theorem C7_witness :
    parse_command (Cmd.name ⟨"G1", [("X", 10), ("S", 500)]⟩) = some "G01" ∧
      lookupV "S" (Cmd.params ⟨"G1", [("X", 10), ("S", 500)]⟩) = some 500 ∧
      ((∃ ws, (stepCmd cfg0 initState ⟨"G1", [("X", 10), ("S", 500)]⟩).lines = [ws] ∧
          ("S" ++ toString (truncQ (500 : ℚ))) ∈ ws) ∧
        (stepCmd cfg0 initState ⟨"G1", [("X", 10), ("S", 500)]⟩).state.spindleSpeed =
          initState.spindleSpeed) :=
  ⟨by decide, by decide,
    C7_amended cfg0 initState ⟨"G1", [("X", 10), ("S", 500)]⟩ "G01" 500
      (by decide) (by decide)⟩

/-! ## Claim C2 — spindle word rendering and edge emission -/

/-- Claim C2 (counterexample): after M3 S=1200, the next linear move's
line carries the spindle word "S1200", not the claimed signed form
"S+1200" — positive spindle speeds are rendered without a sign. -/
theorem C2_counterexample :
    (stepCmd cfg0 (stepCmd cfg0 initState ⟨"M3", [("S", 1200)]⟩).state
        ⟨"G1", [("X", 10)]⟩).lines = [["N0001", "G01", "X+1000", "S1200"]] ∧
      "S+1200" ∉ ["N0001", "G01", "X+1000", "S1200"] := by
  refine ⟨?_, by decide⟩
  have hp : parse_command "G1" = some "G01" := by decide
  have hX : formatLength cfg0 10 = "+1000" := by
    rw [formatLength_eval cfg0 10 1000 (by norm_num [cfg0_lengthScale])]
    decide
  have hT : truncQ (1200 : ℚ) = 1200 := truncQ_eval _ _ (by norm_num)
  simp [stepCmd, hp, paramWords, PARAMS, wordForParam, List.filterMap_cons, hX, hT,
    firstCharIs, pad4, lookupV, cfg0_outputComments, cfg0_outputLineNumbers, cfg0_modal,
    cfg0_outputDoubles, cfg0_useTLO, initState_lastcommand, initState_currLocation,
    initState_linenr, initState_spindleSpeed, initState_lastSpindleSpeed,
    (show ¬((-1 : ℚ) = 10) by norm_num), (show ¬((1200 : ℚ) = 0) by norm_num)]
  all_goals decide

/-- Claim C2 (amended): after a spindle-on-clockwise command carrying
S=1200, the next linear move's emitted line contains the spindle word
"S1200" (truncated integer, no explicit plus sign — only negative speeds
carry a sign); a further linear move with unchanged spindle state emits
no spindle word; and `last_emitted_spindle_speed` changes only when the
spindle word is actually appended to an emitted line whose resolved
mnemonic begins with the motion prefix "G". -/
theorem C2_amended :
    ((parseRun cfg0 initState
        [⟨"M3", [("S", 1200)]⟩, ⟨"G1", [("X", 10)]⟩, ⟨"G1", [("X", 20)]⟩]).2.1 =
      "N0001 G01 X+1000 S1200 \nN0002 G01 X+2000 \n" ∧
      (parseRun cfg0 initState
        [⟨"M3", [("S", 1200)]⟩, ⟨"G1", [("X", 10)]⟩, ⟨"G1", [("X", 20)]⟩]).1.lastSpindleSpeed
        = 1200) ∧
      ∀ (cfg : Config) (s : PState) (c : Cmd),
        (stepCmd cfg s c).state.lastSpindleSpeed = s.lastSpindleSpeed ∨
          ((stepCmd cfg s c).state.lastSpindleSpeed = s.spindleSpeed ∧
            ∃ ws, (stepCmd cfg s c).lines = [ws] ∧
              ("S" ++ toString (truncQ s.spindleSpeed)) ∈ ws) := by
  constructor
  · have hp : parse_command "G1" = some "G01" := by decide
    have hX10 : formatLength cfg0 10 = "+1000" := by
      rw [formatLength_eval cfg0 10 1000 (by norm_num [cfg0_lengthScale])]
      decide
    have hX20 : formatLength cfg0 20 = "+2000" := by
      rw [formatLength_eval cfg0 20 2000 (by norm_num [cfg0_lengthScale])]
      decide
    have hT : truncQ (1200 : ℚ) = 1200 := truncQ_eval _ _ (by norm_num)
    constructor <;>
      (simp [parseRun, runAux, stepText, lineText, stepCmd, hp, paramWords, PARAMS,
        wordForParam, List.filterMap_cons, hX10, hX20, hT, firstCharIs, pad4, lookupV,
        String.join, cfg0_outputComments, cfg0_outputLineNumbers, cfg0_modal,
        cfg0_outputDoubles, cfg0_useTLO, initState_lastcommand, initState_currLocation,
        initState_linenr, initState_spindleSpeed, initState_lastSpindleSpeed,
        (show ¬((-1 : ℚ) = 10) by norm_num), (show ¬((1200 : ℚ) = 0) by norm_num),
        (show ¬((10 : ℚ) = 20) by norm_num)]) <;>
      all_goals decide
  · intro cfg s c
    by_cases h34 : c.name = "M3" ∨ c.name = "M4"
    · left; simp [stepCmd, h34]
    · by_cases h21 : c.name = "G21"
      · left; simp [stepCmd, h34, h21]
      · cases hpc : parse_command c.name with
        | none => left; simp [stepCmd, h34, h21, hpc]
        | some m =>
          rw [stepCmd_resolved cfg s c m hpc]
          dsimp only
          by_cases hsp :
              (firstCharIs 'G' m && decide (s.spindleSpeed ≠ s.lastSpindleSpeed)) = true
          · right
            refine ⟨by rw [if_pos hsp], ?_⟩
            have hmem : ("S" ++ toString (truncQ s.spindleSpeed)) ∈ outP cfg s c m := by
              unfold outP
              refine List.mem_append.mpr (Or.inr ?_)
              rw [if_pos hsp]
              exact List.mem_cons_self _ _
            have hne : outP cfg s c m ≠ [] := by
              intro he
              rw [he] at hmem
              exact absurd hmem (List.not_mem_nil _)
            rw [if_neg hne]
            by_cases hln : cfg.outputLineNumbers = true
            · exact ⟨("N" ++ pad4 (s.linenr + 1)) :: outP cfg s c m, by rw [if_pos hln],
                List.mem_cons_of_mem _ hmem⟩
            · exact ⟨outP cfg s c m, by rw [if_neg hln], hmem⟩
          · left
            rw [if_neg hsp]

/-! ## Claim C4 — determinism of a fresh translation run -/

/-- Claim C4: translating a command sequence twice, each time from a
fresh translation state (the module-load values of the line counter,
spindle speeds and last-emitted values), produces identical output: the
translator reads nothing besides its explicit state, configuration and
input. -/
theorem C4_deterministic (cfg : Config) (cmds : List Cmd) (s₁ s₂ : PState)
    (h₁ : s₁ = initState) (h₂ : s₂ = initState) :
    parseRun cfg s₁ cmds = parseRun cfg s₂ cmds := by
  subst h₁
  subst h₂
  rfl

/-- Claim C4 (witness): the determinism statement at a one-command
sequence. -/
theorem C4_witness :
    initState = initState ∧ initState = initState ∧
      parseRun cfg0 initState [⟨"G1", [("X", 10)]⟩] =
        parseRun cfg0 initState [⟨"G1", [("X", 10)]⟩] :=
  ⟨rfl, rfl, C4_deterministic cfg0 [⟨"G1", [("X", 10)]⟩] initState initState rfl rfl⟩

/-! ## Claim C5 — negative feed handling -/

/-- Claim C5 (counterexample): a linear move carrying F=-1 is translated
silently — the emitted line simply lacks the F word, the diagnostics are
empty, and translation continues normally; no InvalidFeed condition
exists, so the caller cannot distinguish a negative feed from the
silent-skip of an unrecognized command. -/
theorem C5_counterexample :
    (parseRun cfg0 initState [⟨"G1", [("X", 10), ("F", -1)]⟩]).2.1 =
      "N0001 G01 X+1000 \n" ∧
      (parseRun cfg0 initState [⟨"G1", [("X", 10), ("F", -1)]⟩]).2.2 = [] := by
  have hp : parse_command "G1" = some "G01" := by decide
  have hX : formatLength cfg0 10 = "+1000" := by
    rw [formatLength_eval cfg0 10 1000 (by norm_num [cfg0_lengthScale])]
    decide
  constructor <;>
    (simp [parseRun, runAux, stepText, lineText, stepCmd, hp, paramWords, PARAMS,
      wordForParam, List.filterMap_cons, hX, firstCharIs, pad4, lookupV, String.join,
      cfg0_outputComments, cfg0_outputLineNumbers, cfg0_modal, cfg0_outputDoubles,
      cfg0_useTLO, cfg0_speedScale, initState_lastcommand, initState_currLocation,
      initState_linenr, initState_spindleSpeed, initState_lastSpindleSpeed,
      (show ¬((-1 : ℚ) = 10) by norm_num), (show ¬((0 : ℚ) = -1) by norm_num),
      (show ¬((-1 : ℚ) * 60 > 0) by norm_num)]) <;>
    all_goals decide

/-- Claim C5 (amended): a feed value whose converted speed is not
positive (in particular any negative feed) is silently dropped: no F
word is emitted, the only diagnostics the parameter loop can produce are
rotary-axis warnings (there is no InvalidFeed condition), and the step's
diagnostics are exactly those parameter-loop diagnostics. -/
theorem C5_amended (cfg : Config) (s : PState) (c : Cmd) (m : String) (v : ℚ)
    (h : parse_command c.name = some m) (hF : lookupV "F" c.params = some v)
    (hneg : ¬(v * cfg.speedScale > 0)) :
    hasWord 'F' (paramWords cfg c.name s.currLocation c.params).1 = false ∧
      (stepCmd cfg s c).diags = (paramWords cfg c.name s.currLocation c.params).2 ∧
      (paramWords cfg c.name s.currLocation c.params).2.all
        (fun d => d = rotaryDiag) = true := by
  refine ⟨?_, ?_, paramWords_diags_rotary cfg c.name s.currLocation c.params⟩
  · by_contra hcon
    rw [Bool.not_eq_false] at hcon
    obtain ⟨p, v', hp, hv, hw⟩ :=
      hasWord_paramWords_imp 'F' cfg c.name s.currLocation c.params hcon
    by_cases hpF : p = "F"
    · subst hpF
      rw [hF] at hv
      injection hv with hv'
      subst hv'
      rw [wordForParam_F_empty cfg c.name s.currLocation v hneg] at hw
      simp [hasWord] at hw
    · rcases wordForParam_fst_shape cfg c.name s.currLocation p v' with he | ⟨t, ht⟩
      · rw [he] at hw
        simp [hasWord] at hw
      · rw [ht] at hw
        simp only [hasWord, List.any_cons, List.any_nil, Bool.or_false] at hw
        exact hpF (PARAMS_F p hp (PARAMS_firstChar p hp 'F' t hw))
  · rw [stepCmd_resolved cfg s c m h]

/-- Claim C5 (witness): the amended statement at the F=-1 linear move
from the fresh state. -/
theorem C5_witness :
    parse_command (Cmd.name ⟨"G1", [("X", 10), ("F", -1)]⟩) = some "G01" ∧
      lookupV "F" (Cmd.params ⟨"G1", [("X", 10), ("F", -1)]⟩) = some (-1) ∧
      ¬((-1 : ℚ) * cfg0.speedScale > 0) ∧
      (hasWord 'F' (paramWords cfg0 "G1" initState.currLocation
          [("X", 10), ("F", -1)]).1 = false ∧
        (stepCmd cfg0 initState ⟨"G1", [("X", 10), ("F", -1)]⟩).diags =
          (paramWords cfg0 "G1" initState.currLocation [("X", 10), ("F", -1)]).2 ∧
        (paramWords cfg0 "G1" initState.currLocation [("X", 10), ("F", -1)]).2.all
          (fun d => d = rotaryDiag) = true) :=
  ⟨by decide, by decide, by norm_num [cfg0_speedScale],
    C5_amended cfg0 initState ⟨"G1", [("X", 10), ("F", -1)]⟩ "G01" (-1)
      (by decide) (by decide) (by norm_num [cfg0_speedScale])⟩

/-! ## Claim C8 — currLocation update policy -/

/-- Claim C8 (counterexample): an F=100 carried by a rapid move (G0,
where feed is never emitted) is nevertheless stored in currLocation and
suppresses the identical F=100 on the following linear move — no line of
the two-command run carries an F word. -/
theorem C8_counterexample :
    (parseRun cfg0 initState
        [⟨"G0", [("X", 10), ("F", 100)]⟩, ⟨"G1", [("X", 20), ("F", 100)]⟩]).2.1 =
      "N0001 G00 X+1000 \nN0002 G01 X+2000 \n" ∧
      (stepCmd cfg0 (stepCmd cfg0 initState ⟨"G0", [("X", 10), ("F", 100)]⟩).state
        ⟨"G1", [("X", 20), ("F", 100)]⟩).lines = [["N0002", "G01", "X+2000"]] ∧
      hasWord 'F' ["N0002", "G01", "X+2000"] = false := by
  have hp0 : parse_command "G0" = some "G00" := by decide
  have hp1 : parse_command "G1" = some "G01" := by decide
  have hX10 : formatLength cfg0 10 = "+1000" := by
    rw [formatLength_eval cfg0 10 1000 (by norm_num [cfg0_lengthScale])]
    decide
  have hX20 : formatLength cfg0 20 = "+2000" := by
    rw [formatLength_eval cfg0 20 2000 (by norm_num [cfg0_lengthScale])]
    decide
  refine ⟨?_, ?_, by decide⟩ <;>
    (simp [parseRun, runAux, stepText, lineText, stepCmd, hp0, hp1, paramWords, PARAMS,
      wordForParam, List.filterMap_cons, hX10, hX20, firstCharIs, pad4, lookupV,
      String.join, cfg0_outputComments, cfg0_outputLineNumbers, cfg0_modal,
      cfg0_outputDoubles, cfg0_useTLO, cfg0_speedScale, initState_lastcommand,
      initState_currLocation, initState_linenr, initState_spindleSpeed,
      initState_lastSpindleSpeed,
      (show ¬((-1 : ℚ) = 10) by norm_num), (show ¬((0 : ℚ) = 100) by norm_num),
      (show ¬((10 : ℚ) = 20) by norm_num)]) <;>
    all_goals decide

/-- Claim C8 (amended): after any command that passes dialect lookup,
currLocation holds — for EVERY parameter letter the command carried —
the raw commanded value, whether or not a word for it was emitted
(`currLocation.update(c.Parameters)` is unconditional); so a feed
carried by a rapid move does suppress a later identical feed. -/
theorem C8_amended (cfg : Config) (s : PState) (c : Cmd) (m : String)
    (k : String) (v : ℚ)
    (h : parse_command c.name = some m) (hk : lookupV k c.params = some v) :
    lookupV k (stepCmd cfg s c).state.currLocation = some v := by
  rw [stepCmd_resolved cfg s c m h]
  exact lookup_append_left hk

/-- Claim C8 (witness): the amended statement for the F parameter of a
rapid move, whose feed word is never emitted. -/
theorem C8_witness :
    parse_command (Cmd.name ⟨"G0", [("X", 10), ("F", 100)]⟩) = some "G00" ∧
      lookupV "F" (Cmd.params ⟨"G0", [("X", 10), ("F", 100)]⟩) = some 100 ∧
      lookupV "F"
        (stepCmd cfg0 initState ⟨"G0", [("X", 10), ("F", 100)]⟩).state.currLocation =
        some 100 :=
  ⟨by decide, by decide,
    C8_amended cfg0 initState ⟨"G0", [("X", 10), ("F", 100)]⟩ "G00" "F" 100
      (by decide) (by decide)⟩

/-! ## Claim C9 — format_length rounding convention -/

/-- Claim C9 (counterexample): format_length does not round to nearest:
at 0.019 mm the scaled value is 1.9, whose nearest integer is 2, yet the
rendered word is "+1" — the code truncates via Python `int()`. -/
theorem C9_counterexample :
    formatLength cfg0 (19/1000) = "+1" ∧
      round ((19 : ℚ)/1000 * cfg0.lengthScale * 100) = 2 := by
  constructor
  · have h2 : ((19/1000 : ℚ) * cfg0.lengthScale * 100) = 19/10 := by
      norm_num [cfg0_lengthScale]
    have h1 : truncQ ((19/1000 : ℚ) * cfg0.lengthScale * 100) = 1 := by
      rw [h2]
      unfold truncQ
      norm_num
      all_goals decide
    unfold formatLength
    rw [h1]
    decide
  · have h2 : ((19 : ℚ)/1000 * cfg0.lengthScale * 100) = 19/10 := by
      norm_num [cfg0_lengthScale]
    rw [h2, round_eq]
    norm_num

/-- Claim C9 (amended): format_length scales into the configured unit
family, multiplies by 100 and TRUNCATES TOWARD ZERO (Python `int()`):
the rendered integer is the floor for non-negative scaled values and the
ceiling for negative ones, with an explicit "+" for non-negative results
(negative results carry the "-" of the integer itself).  Pinned values:
10.0 mm ↦ "+1000"; the -0.005 mm boundary ↦ "+0"; 0.019 mm ↦ "+1";
-0.019 mm ↦ "-1". -/
theorem C9_amended (q : ℚ) :
    formatLength cfg0 10 = "+1000" ∧
      formatLength cfg0 (-1/200) = "+0" ∧
      formatLength cfg0 (19/1000) = "+1" ∧
      formatLength cfg0 (-19/1000) = "-1" ∧
      truncQ q = (if 0 ≤ q then ⌊q⌋ else ⌈q⌉) := by
  refine ⟨?_, ?_, ?_, ?_, ?_⟩
  · rw [formatLength_eval cfg0 10 1000 (by norm_num [cfg0_lengthScale])]
    decide
  · have h2 : ((-1/200 : ℚ) * cfg0.lengthScale * 100) = -1/2 := by
      norm_num [cfg0_lengthScale]
    have h1 : truncQ ((-1/200 : ℚ) * cfg0.lengthScale * 100) = 0 := by
      rw [h2]
      unfold truncQ
      norm_num
      all_goals decide
    unfold formatLength
    rw [h1]
    decide
  · have h2 : ((19/1000 : ℚ) * cfg0.lengthScale * 100) = 19/10 := by
      norm_num [cfg0_lengthScale]
    have h1 : truncQ ((19/1000 : ℚ) * cfg0.lengthScale * 100) = 1 := by
      rw [h2]
      unfold truncQ
      norm_num
      all_goals decide
    unfold formatLength
    rw [h1]
    decide
  · have h2 : ((-19/1000 : ℚ) * cfg0.lengthScale * 100) = -19/10 := by
      norm_num [cfg0_lengthScale]
    have h1 : truncQ ((-19/1000 : ℚ) * cfg0.lengthScale * 100) = -1 := by
      rw [h2]
      unfold truncQ
      norm_num
      all_goals decide
    unfold formatLength
    rw [h1]
    decide
  · by_cases h : 0 ≤ q
    · rw [if_pos h, truncQ_eq_floor_of_nonneg h]
    · rw [if_neg h]
      have h2 : 0 ≤ -q := neg_nonneg.mpr (le_of_lt (lt_of_not_le h))
      have h3 : truncQ q = -truncQ (-q) := by
        rw [truncQ_neg, neg_neg]
      rw [h3, truncQ_eq_floor_of_nonneg h2]
      have hc : (⌈q⌉ : ℤ) = -⌊-q⌋ := by
        conv_lhs => rw [← neg_neg q]
        rw [Int.ceil_neg]
      rw [hc]

/-! ## Claim C10 — dead tool-change branch, TLO toggle irrelevant -/

/-- Claim C10: the dialect table sends M6 (and every name outside
G0/G1/G2/G3/G54) to `none`, so the tool-change branch is unreachable —
no step ever emits the M5/tool-change pre-text — and consequently the
tool-length-offset toggle (USE_TLO / --no-tlo) has no effect whatsoever
on the result of a translation run. -/
theorem C10_tlo_irrelevant :
    parse_command "M6" = none ∧
      (∀ (cfg : Config) (s : PState) (c : Cmd), (stepCmd cfg s c).preText = "") ∧
      ∀ (cfg : Config) (b₁ b₂ : Bool) (s : PState) (cmds : List Cmd),
        parseRun { cfg with useTLO := b₁ } s cmds =
          parseRun { cfg with useTLO := b₂ } s cmds := by
  refine ⟨by decide, ?_, ?_⟩
  · intro cfg s c
    by_cases h34 : c.name = "M3" ∨ c.name = "M4"
    · simp [stepCmd, h34]
    · by_cases h21 : c.name = "G21"
      · simp [stepCmd, h34, h21]
      · cases hpc : parse_command c.name with
        | none => simp [stepCmd, h34, h21, hpc]
        | some m =>
          rw [stepCmd_resolved cfg s c m hpc]
  · intro cfg b₁ b₂ s cmds
    unfold parseRun
    rw [runAux_useTLO cfg b₁ cmds s "" [], runAux_useTLO cfg b₂ cmds s "" []]

end DeckelPost
